import Mathlib

/-!
Verification of the Excel-Processing-Module repository.

This file shallowly embeds the pure algorithmic core of the repository:
the chunked reconciliation driver and row counter of excel_processor.py,
and the patch applier of final_json_from_outputFolder_to_xlsx_filling.py
(merged-cell resolution, value coercion, sheet-name sanitization, and the
save decision). Definitions are transcribed from the Python source;
Python strings are modelled as Lean strings over their character lists,
Python dicts built by insertion as association lists with last-insertion
lookup, Python ints as Nat or Int, and Python floats as rationals.
-/

namespace ExcelProcessing

/-- Model of a Python scalar value as it flows through the patch pipeline:
None, int, float (modelled as a rational), or str. -/
inductive PyValue where
  | noneV : PyValue
  | intV : Int → PyValue
  | floatV : Rat → PyValue
  | strV : String → PyValue
deriving DecidableEq, Repr

/-- Model of Python value.replace applied with a comma and an empty string,
from line 119 of final_json_from_outputFolder_to_xlsx_filling.py: removes
every comma character from the string. -/
def stripCommas (s : String) : String :=
  String.mk (s.data.filter fun c => decide (c ≠ ','))

/-- Model of Python str.isdigit for the ASCII digits that occur in patch
values: true when the string is nonempty and every character is a digit. -/
def pyIsDigit (s : String) : Bool :=
  !s.data.isEmpty && s.data.all Char.isDigit

/-- Decimal value of a list of digit characters, as Python int() computes it
on a digit-only string. -/
def parseDigits (l : List Char) : Nat :=
  l.foldl (fun acc c => acc * 10 + (c.toNat - 48)) 0

/-- Model of Python float() on the numeric-literal strings this pipeline
meets: an optional sign, integer digits, and an optional fractional part.
Returns none when the string is not such a literal, which is how the
source code detects a non-numeric value. -/
def pyFloat (s : String) : Option Rat :=
  let signAndRest : Rat × List Char :=
    match s.data with
    | '-' :: rest => (-1, rest)
    | '+' :: rest => (1, rest)
    | l => (1, l)
  let sign := signAndRest.1
  let rest := signAndRest.2
  let ip := rest.takeWhile Char.isDigit
  let after := rest.dropWhile Char.isDigit
  match after with
  | [] => if ip.isEmpty then none else some (sign * (parseDigits ip : Rat))
  | '.' :: rest2 =>
    let fp := rest2.takeWhile Char.isDigit
    let after2 := rest2.dropWhile Char.isDigit
    if after2.isEmpty then
      if ip.isEmpty && fp.isEmpty then none
      else some (sign * ((parseDigits ip : Rat) + (parseDigits fp : Rat) / ((10 : Rat) ^ fp.length)))
    else none
  | _ => none

/-- Value coercion from lines 117 to 126 of
final_json_from_outputFolder_to_xlsx_filling.py: on a string value, remove
all commas, then try int() when the cleaned string is all digits, else try
float(), else keep the original string; non-string values pass unchanged. -/
def coerceValue : PyValue → PyValue
  | PyValue.strV s =>
    let clean := stripCommas s
    if pyIsDigit clean then PyValue.intV (parseDigits clean.data)
    else
      match pyFloat clean with
      | some q => PyValue.floatV q
      | none => PyValue.strV s
  | v => v

/-- A merged cell range of a worksheet, with the field names used by
openpyxl and by both source files. -/
structure MergedRange where
  min_row : Nat
  min_col : Nat
  max_row : Nat
  max_col : Nat
deriving DecidableEq, Repr

/-- All coordinates covered by a merged range, row major, matching the
nested row and column loops of both source files. -/
def rangeCells (mr : MergedRange) : List (Nat × Nat) :=
  (List.range' mr.min_row (mr.max_row + 1 - mr.min_row)).flatMap fun r =>
    (List.range' mr.min_col (mr.max_col + 1 - mr.min_col)).map fun c => (r, c)

/-- The governing top-left coordinate of a merged range. -/
def MergedRange.topLeft (mr : MergedRange) : Nat × Nat :=
  (mr.min_row, mr.min_col)

/-- Lookup in an insertion-ordered association list with Python dict
semantics: the last inserted binding for a key wins. -/
def dictLookup (m : List ((Nat × Nat) × (Nat × Nat))) (k : Nat × Nat) : Option (Nat × Nat) :=
  (m.reverse.find? fun e => decide (e.1 = k)).map fun e => e.2

/-- Transcription of get_merged_cell_mapping from lines 20 to 42 of
final_json_from_outputFolder_to_xlsx_filling.py: every coordinate of every
merged range, the top-left corner included, is bound to that top-left
corner, in range order. -/
def get_merged_cell_mapping (ranges : List MergedRange) : List ((Nat × Nat) × (Nat × Nat)) :=
  ranges.foldl (fun acc mr => acc ++ (rangeCells mr).map fun q => (q, mr.topLeft)) []

/-- Transcription of resolve_merged_cell_reference from lines 44 to 78 of
final_json_from_outputFolder_to_xlsx_filling.py, with cell references
modelled as already-parsed (row, column) coordinates: a coordinate bound in
the merged mapping resolves to its top-left corner, any other coordinate is
returned unchanged. -/
def resolve_merged_cell_reference (cell_ref : Nat × Nat) (merged_mapping : List ((Nat × Nat) × (Nat × Nat))) : Nat × Nat :=
  match dictLookup merged_mapping cell_ref with
  | some tl => tl
  | none => cell_ref

/-- A worksheet: its merged ranges and a total assignment of values to
coordinates. -/
structure Worksheet where
  mergedRanges : List MergedRange
  cells : Nat × Nat → PyValue

/-- One proposed cell update from the reconciliation output, with the field
names of the JSON artifacts. The reference is modelled as a parsed
(row, column) coordinate. -/
structure CellPatch where
  cell_reference : Nat × Nat
  value : PyValue
  context : String
deriving Repr

/-- One iteration of the patch loop of update_excel_sheet, lines 97 to 140
of final_json_from_outputFolder_to_xlsx_filling.py: skip a patch whose
value is missing or the empty string, otherwise resolve the reference
through the merged mapping, coerce the value, write it, and count the
update. -/
def applyPatchStep (merged_mapping : List ((Nat × Nat) × (Nat × Nat))) (acc : Worksheet × Nat) (p : CellPatch) : Worksheet × Nat :=
  if p.value = PyValue.noneV ∨ p.value = PyValue.strV "" then acc
  else
    let resolved := resolve_merged_cell_reference p.cell_reference merged_mapping
    ({ mergedRanges := acc.1.mergedRanges,
       cells := Function.update acc.1.cells resolved (coerceValue p.value) }, acc.2 + 1)

/-- The body of update_excel_sheet applied to one worksheet: build the
merged mapping once, then fold the patch loop over the patch list,
returning the updated worksheet and the number of updates made. -/
def applyPatchesToSheet (ws : Worksheet) (cell_data : List CellPatch) : Worksheet × Nat :=
  cell_data.foldl (applyPatchStep (get_merged_cell_mapping ws.mergedRanges)) (ws, 0)

/-- A workbook: its sheets in order, each with its name. -/
structure Workbook where
  sheets : List (String × Worksheet)

/-- The sheet names of a workbook in order, as workbook.sheetnames. -/
def Workbook.sheetnames (wb : Workbook) : List String :=
  wb.sheets.map fun e => e.1

/-- Find a sheet by name, as indexing a workbook by sheet name. -/
def Workbook.findSheet (wb : Workbook) (name : String) : Option Worksheet :=
  (wb.sheets.find? fun e => decide (e.1 = name)).map fun e => e.2

/-- Replace the sheet of the given name, leaving the others unchanged. -/
def Workbook.setSheet (wb : Workbook) (name : String) (ws : Worksheet) : Workbook :=
  { sheets := wb.sheets.map fun e => if e.1 = name then (e.1, ws) else e }

/-- Transcription of update_excel_sheet from lines 80 to 146 of
final_json_from_outputFolder_to_xlsx_filling.py: a missing sheet yields
zero updates, otherwise the patch list is applied to the named sheet. -/
def update_excel_sheet (wb : Workbook) (sheet_name : String) (cell_data : List CellPatch) : Workbook × Nat :=
  match wb.findSheet sheet_name with
  | none => (wb, 0)
  | some ws =>
    let r := applyPatchesToSheet ws cell_data
    (wb.setSheet sheet_name r.1, r.2)

/-- What the patch applier finds when it looks for the JSON artifact of one
sheet: no file, a file that fails to load, a loaded JSON object, a loaded
JSON array, or a loaded value of any other shape. -/
inductive JsonArtifact where
  | missing : JsonArtifact
  | loadError : JsonArtifact
  | objData : CellPatch → JsonArtifact
  | arrData : List CellPatch → JsonArtifact
  | badShape : JsonArtifact

/-- The artifact cases that reach update_excel_sheet, from lines 236 to 254
of final_json_from_outputFolder_to_xlsx_filling.py: a JSON object is
wrapped into a one-element list, a JSON array passes through, and a
missing, unreadable, or wrongly shaped artifact is skipped. -/
def sheetPatchData : JsonArtifact → Option (List CellPatch)
  | JsonArtifact.objData p => some [p]
  | JsonArtifact.arrData ps => some ps
  | _ => none

/-- Remove from both ends of a character list every character satisfying
the predicate, as Python str.strip does. -/
def stripEnds (l : List Char) (p : Char → Bool) : List Char :=
  ((l.dropWhile p).reverse.dropWhile p).reverse

/-- Model of Python str.replace with a one-character target: every
occurrence of the target is replaced by the given list. -/
def replaceAll (l : List Char) (target : Char) (repl : List Char) : List Char :=
  l.flatMap fun c => if c = target then repl else [c]

/-- The fixpoint of the while loop of lines 173 to 174 of
final_json_from_outputFolder_to_xlsx_filling.py, which replaces double
underscores until none remain: every maximal run of underscores collapses
to a single underscore. -/
def collapseUnderscores (l : List Char) : List Char :=
  l.foldr (fun c acc => if c = '_' ∧ acc.head? = some '_' then acc else c :: acc) []

/-- Transcription of clean_sheet_name_for_json from lines 148 to 179 of
final_json_from_outputFolder_to_xlsx_filling.py: strip outer whitespace,
replace space, dot, opening parenthesis, comma, and hyphen with
underscores, delete closing parentheses, collapse underscore runs, and
strip outer underscores. -/
def clean_sheet_name_for_json (sheet_name : String) : String :=
  let c0 := stripEnds sheet_name.data Char.isWhitespace
  let c1 := replaceAll c0 ' ' ['_']
  let c2 := replaceAll c1 '.' ['_']
  let c3 := replaceAll c2 '(' ['_']
  let c4 := replaceAll c3 ')' []
  let c5 := replaceAll c4 ',' ['_']
  let c6 := replaceAll c5 '-' ['_']
  String.mk (stripEnds (collapseUnderscores c6) fun c => decide (c = '_'))

/-- The JSON filename the patch applier expects for one sheet, from line
233 of final_json_from_outputFolder_to_xlsx_filling.py. -/
def expectedJsonFilename (workbook_name sheet_name : String) : String :=
  workbook_name ++ "_" ++ clean_sheet_name_for_json sheet_name ++ ".json"

/-- One iteration of the sheet loop of update_excel_from_json, lines 228
to 260 of final_json_from_outputFolder_to_xlsx_filling.py: look up the
expected JSON artifact of the sheet; when it yields patch data, update the
sheet, mark the workbook updated, and add the update count. -/
def processSheetStep (workbook_name : String) (files : String → JsonArtifact) (acc : Workbook × Bool × Nat) (sheet_name : String) : Workbook × Bool × Nat :=
  match sheetPatchData (files (expectedJsonFilename workbook_name sheet_name)) with
  | none => acc
  | some cell_data =>
    let r := update_excel_sheet acc.1 sheet_name cell_data
    (r.1, true, acc.2.2 + r.2)

/-- The per-workbook body of update_excel_from_json, lines 214 to 269 of
final_json_from_outputFolder_to_xlsx_filling.py: fold the sheet loop over
the sheet names. Returns the final workbook, the updated flag that decides
whether the workbook is saved, and the total update count. -/
def processWorkbook (workbook_name : String) (wb : Workbook) (files : String → JsonArtifact) : Workbook × Bool × Nat :=
  wb.sheetnames.foldl (processSheetStep workbook_name files) (wb, false, 0)

/-- Merge classification value stored by find_merged_ranges of
excel_processor.py: the top-left root with its optional spans, or a hidden
subordinate cell. -/
inductive MergeInfo where
  | root : Option Nat → Option Nat → MergeInfo
  | hiddenCell : MergeInfo
deriving DecidableEq, Repr

/-- True exactly on the root constructor. -/
def MergeInfo.isRootInfo : MergeInfo → Bool
  | MergeInfo.root _ _ => true
  | MergeInfo.hiddenCell => false

/-- The dictionary entries one merged range contributes in
find_merged_ranges of excel_processor.py: the top-left coordinate is bound
to a root entry carrying colspan and rowspan when greater than one, and
every other coordinate of the range is bound to a hidden entry. -/
def mergeEntriesFor (mr : MergedRange) : List ((Nat × Nat) × MergeInfo) :=
  let colspan := mr.max_col - mr.min_col + 1
  let rowspan := mr.max_row - mr.min_row + 1
  (mr.topLeft, MergeInfo.root (if colspan > 1 then some colspan else none) (if rowspan > 1 then some rowspan else none)) ::
    ((rangeCells mr).filter fun q => decide (q ≠ mr.topLeft)).map fun q => (q, MergeInfo.hiddenCell)

/-- Transcription of find_merged_ranges from lines 209 to 233 of
excel_processor.py: the entries of all merged ranges, in range order. -/
def find_merged_ranges (ranges : List MergedRange) : List ((Nat × Nat) × MergeInfo) :=
  ranges.foldl (fun acc mr => acc ++ mergeEntriesFor mr) []

/-- A coordinate is classified governing when some entry of the merged
ranges dictionary binds it to a root record. -/
def isGoverningCell (ranges : List MergedRange) (p : Nat × Nat) : Bool :=
  (find_merged_ranges ranges).any fun e => decide (e.1 = p) && e.2.isRootInfo

/-- A coordinate is classified hidden when some entry of the merged ranges
dictionary binds it to a hidden record. -/
def isHiddenCell (ranges : List MergedRange) (p : Nat × Nat) : Bool :=
  (find_merged_ranges ranges).any fun e => decide (e.1 = p) && !e.2.isRootInfo

/-- A coordinate is classified ordinary when the merged ranges dictionary
has no entry for it. -/
def isOrdinaryCell (ranges : List MergedRange) (p : Nat × Nat) : Bool :=
  !(find_merged_ranges ranges).any fun e => decide (e.1 = p)

/-- Ceiling division used at line 619 of excel_processor.py to compute the
number of chunks. -/
def numChunks (total_rows chunk_size : Nat) : Nat :=
  (total_rows + chunk_size - 1) / chunk_size

/-- The row window of one chunk, from lines 624 to 625 of
excel_processor.py: rows from chunk_num times chunk_size plus one up to the
minimum of the next multiple of chunk_size and the total row count. -/
def chunkWindow (chunk_size total_rows chunk_num : Nat) : Nat × Nat :=
  (chunk_num * chunk_size + 1, min ((chunk_num + 1) * chunk_size) total_rows)

/-- All chunk windows of a file in dispatch order. -/
def chunkWindows (total_rows chunk_size : Nat) : List (Nat × Nat) :=
  (List.range (numChunks total_rows chunk_size)).map (chunkWindow chunk_size total_rows)

/-- The rows a window covers, as an increasing list. -/
def windowRows (w : Nat × Nat) : List Nat :=
  List.range' w.1 (w.2 + 1 - w.1)

/-- The patches accumulated over all chunks, from the loop of lines 623 to
656 of excel_processor.py: each chunk either contributes its parsed patch
list or, on a failed or unparseable response, nothing. -/
def collectChunkPatches {α : Type} (total_rows chunk_size : Nat) (chunkResult : Nat → Option (List α)) : List α :=
  ((List.range (numChunks total_rows chunk_size)).filterMap chunkResult).flatten

/-- Transcription of the control flow of process_html_file_in_chunks,
lines 592 to 698 of excel_processor.py, with the external call abstracted
as a per-chunk oracle: zero total rows returns failure at once; otherwise
the accumulated patches decide the outcome, success exactly when the
accumulated list is nonempty. Returns the success flag and the accumulated
patch list. -/
def process_html_file_in_chunks {α : Type} (total_rows chunk_size : Nat) (chunkResult : Nat → Option (List α)) : Bool × List α :=
  if total_rows = 0 then (false, [])
  else
    let all := collectChunkPatches total_rows chunk_size chunkResult
    (!all.isEmpty, all)

/-- A row marker match at the head of the text, mirroring one match of the
row id pattern of line 580 of excel_processor.py: the literal characters
of the marker prefix, then at least one digit, then a closing quote. -/
def rowIdAt (l : List Char) : Option Nat :=
  match l with
  | 'i' :: 'd' :: '=' :: '"' :: 'r' :: 'o' :: 'w' :: rest =>
    let ds := rest.takeWhile Char.isDigit
    if !ds.isEmpty && (rest.dropWhile Char.isDigit).head? = some '"' then some (parseDigits ds)
    else none
  | _ => none

/-- All row marker numbers found in the text in order, as the findall of
line 581 of excel_processor.py. Matches of this pattern cannot overlap, so
scanning every start position finds exactly the regex matches. -/
def extractRowIds : List Char → List Nat
  | [] => []
  | c :: rest =>
    match rowIdAt (c :: rest) with
    | some n => n :: extractRowIds rest
    | none => extractRowIds rest

/-- Transcription of count_html_rows, lines 550 to 590 of
excel_processor.py, on the decoded text: no matches yield zero, otherwise
the maximum matched row number. -/
def count_html_rows (html_content : List Char) : Nat :=
  let ids := extractRowIds html_content
  if ids.isEmpty then 0 else ids.foldl max 0

/-- Modelled from the words of claim C4 of the specification, for
comparison with the source sanitization: whitespace and each of dot,
parentheses, comma, and hyphen become single underscores, and the result
is trimmed. -/
def claimedCharMap (c : Char) : List Char :=
  if c.isWhitespace ∨ c = '.' ∨ c = '(' ∨ c = ')' ∨ c = ',' ∨ c = '-' then ['_'] else [c]

/-- The sanitization exactly as claim C4 words it, built from
claimedCharMap with the same run collapsing and trimming as the source. -/
def claimedSanitize (s : String) : String :=
  String.mk (stripEnds (collapseUnderscores (s.data.flatMap claimedCharMap)) fun c => decide (c = '_'))

/-- Character-level description of what the source sanitization does to one
character after the outer whitespace strip: the space character and each
of dot, opening parenthesis, comma, and hyphen become an underscore, the
closing parenthesis is deleted, everything else is kept. -/
def amendedCharMap (c : Char) : List Char :=
  if c = ' ' ∨ c = '.' ∨ c = '(' ∨ c = ',' ∨ c = '-' then ['_']
  else if c = ')' then [] else [c]

/-- The amended sanitization of claim C4: strip outer whitespace, apply
amendedCharMap to every character, collapse underscore runs, strip outer
underscores. -/
def amendedSanitize (s : String) : String :=
  String.mk (stripEnds (collapseUnderscores ((stripEnds s.data Char.isWhitespace).flatMap amendedCharMap)) fun c => decide (c = '_'))

/-- The six character replacements of clean_sheet_name_for_json in source
order, as one function, for reasoning about the sanitization. -/
def sixReplace (l : List Char) : List Char :=
  replaceAll (replaceAll (replaceAll (replaceAll (replaceAll (replaceAll l ' ' ['_']) '.' ['_']) '(' ['_']) ')' []) ',' ['_']) '-' ['_']

theorem foldl_append_eq {α β : Type} (l : List α) (f : α → List β) (acc : List β) :
    l.foldl (fun a x => a ++ f x) acc = acc ++ (l.map f).flatten := by
  induction l generalizing acc with
  | nil => simp
  | cons x xs ih => simp [ih]

theorem get_merged_cell_mapping_eq (ranges : List MergedRange) :
    get_merged_cell_mapping ranges = (ranges.map fun mr => (rangeCells mr).map fun q => (q, mr.topLeft)).flatten := by
  simpa using foldl_append_eq ranges (fun mr => (rangeCells mr).map fun q => (q, mr.topLeft)) []

theorem mem_rangeCells {mr : MergedRange} {q : Nat × Nat} :
    q ∈ rangeCells mr ↔ mr.min_row ≤ q.1 ∧ q.1 ≤ mr.max_row ∧ mr.min_col ≤ q.2 ∧ q.2 ≤ mr.max_col := by
  obtain ⟨r, c⟩ := q
  simp only [rangeCells, List.mem_flatMap, List.mem_map, List.mem_range'_1]
  constructor
  · rintro ⟨r0, hr0, c0, hc0, heq⟩
    obtain ⟨rfl, rfl⟩ : r0 = r ∧ c0 = c := Prod.mk.injEq .. ▸ heq
    omega
  · rintro ⟨h1, h2, h3, h4⟩
    exact ⟨r, by omega, c, by omega, rfl⟩

/-- C1: the claim says a rendered table with zero row markers makes the
chunked reconciliation a no-op success; the code returns failure instead.
At the concrete input of zero total rows, with every chunk even reporting a
patch, the success flag is false. -/
theorem zeroRows_not_success :
    (process_html_file_in_chunks 0 30 (fun _ => some ([1] : List Nat))).1 = false := by
  decide

/-- C1 amended: a row count of zero makes the chunked reconciliation a
no-op failure: it returns the failure flag together with an empty patch
set, whatever the chunk size and whatever the chunk oracle would answer. -/
theorem zeroRows_noop_failure {α : Type} (chunk_size : Nat) (chunkResult : Nat → Option (List α)) :
    process_html_file_in_chunks 0 chunk_size chunkResult = (false, []) :=
  rfl

/-- C2: the claim says the run reports success exactly when at least one
window response was successfully parsed; but a file of one window whose
response parses to an empty patch array is reported failed, so one
successfully parsed window does not suffice. -/
theorem parsedEmptyWindow_not_success :
    numChunks 1 30 = 1 ∧
    (some ([] : List Nat)).isSome = true ∧
    (process_html_file_in_chunks 1 30 (fun _ => some ([] : List Nat))).1 = false := by
  decide

/-- C2 amended: for a file with at least one row, the run reports success
exactly when the patches accumulated from the successfully parsed windows
form a nonempty list; in particular zero successfully parsed windows still
means the file is reported failed. -/
theorem success_iff_patches_nonempty {α : Type} (total_rows chunk_size : Nat)
    (chunkResult : Nat → Option (List α)) (hN : 1 ≤ total_rows) :
    ((process_html_file_in_chunks total_rows chunk_size chunkResult).1 = true ↔
      (process_html_file_in_chunks total_rows chunk_size chunkResult).2 ≠ []) ∧
    ((∀ i, chunkResult i = none) →
      (process_html_file_in_chunks total_rows chunk_size chunkResult).1 = false) := by
  have h0 : total_rows ≠ 0 := by omega
  constructor
  · simp [process_html_file_in_chunks, h0]
  · intro hall
    simp [process_html_file_in_chunks, h0, collectChunkPatches, hall]

/-- Witness for the amended C2 theorem at a concrete input: one row, one
window, one parsed patch, reported success. -/
theorem success_iff_patches_nonempty_witness :
    (process_html_file_in_chunks 1 30 (fun _ => some ([5] : List Nat))).1 = true :=
  (success_iff_patches_nonempty 1 30 (fun _ => some [5]) (by decide)).1.mpr (by decide)

/-- C9: patch-value coercion strips the commas, then tries the integer
parse, else the float parse, else keeps the text unchanged; in particular
the string of one-comma-two-three-four coerces to the integer 1234, the
string twelve-point-five to the rational 25 over 2, and a non-numeric
string stays the very same text. -/
theorem value_coercion_policy :
    coerceValue (PyValue.strV "1,234") = PyValue.intV 1234 ∧
    coerceValue (PyValue.strV "12.5") = PyValue.floatV (25 / 2) ∧
    coerceValue (PyValue.strV "N/A") = PyValue.strV "N/A" ∧
    ∀ s : String,
      (pyIsDigit (stripCommas s) = true →
        coerceValue (PyValue.strV s) = PyValue.intV (parseDigits (stripCommas s).data)) ∧
      (pyIsDigit (stripCommas s) = false → pyFloat (stripCommas s) = none →
        coerceValue (PyValue.strV s) = PyValue.strV s) ∧
      (∀ q : Rat, pyIsDigit (stripCommas s) = false → pyFloat (stripCommas s) = some q →
        coerceValue (PyValue.strV s) = PyValue.floatV q) := by
  refine ⟨by decide, ?_, by decide, ?_⟩
  · show (if pyIsDigit (stripCommas "12.5") then PyValue.intV (parseDigits (stripCommas "12.5").data)
      else match pyFloat (stripCommas "12.5") with
        | some q => PyValue.floatV q
        | none => PyValue.strV "12.5") = PyValue.floatV (25 / 2)
    rw [if_neg (by decide)]
    have h : pyFloat (stripCommas "12.5") = some (25 / 2) := by
      show some ((1 : Rat) * ((parseDigits ['1', '2'] : Rat) + (parseDigits ['5'] : Rat) /
        (10 : Rat) ^ ((['5'] : List Char).length))) = some (25 / 2)
      norm_num [parseDigits, show ('1'.toNat - 48 : Nat) = 1 from rfl,
        show ('2'.toNat - 48 : Nat) = 2 from rfl, show ('5'.toNat - 48 : Nat) = 5 from rfl]
    rw [h]
  · intro s
    refine ⟨fun h => by simp [coerceValue, h], fun h1 h2 => by simp [coerceValue, h1, h2],
      fun q h1 h2 => by simp [coerceValue, h1, h2]⟩

/-- Witness for the C9 theorem: a concrete digit string takes the integer
branch of the policy. -/
theorem value_coercion_policy_witness :
    coerceValue (PyValue.strV "77") = PyValue.intV (parseDigits (stripCommas "77").data) :=
  (value_coercion_policy.2.2.2 "77").1 (by decide)

/-- C10: the coercion removes every comma of a textual value, wherever it
occurs, before the numeric parse; hence the string one-comma-two is
written to the sheet as the integer twelve. -/
theorem comma_removal_everywhere :
    (∀ s : String, ',' ∉ (stripCommas s).data) ∧
    coerceValue (PyValue.strV "1,2") = PyValue.intV 12 ∧
    ((applyPatchesToSheet (Worksheet.mk [] fun _ => PyValue.noneV)
      [CellPatch.mk (1, 1) (PyValue.strV "1,2") "c"]).1).cells (1, 1) = PyValue.intV 12 := by
  refine ⟨?_, by decide, by decide⟩
  intro s
  simp [stripCommas, List.mem_filter]

/-- Witness for the C10 theorem at a concrete string containing a comma. -/
theorem comma_removal_everywhere_witness : ',' ∉ (stripCommas "a,b").data :=
  comma_removal_everywhere.1 "a,b"

theorem foldl_max_perm {l1 l2 : List Nat} (h : l1.Perm l2) :
    ∀ acc : Nat, l1.foldl max acc = l2.foldl max acc := by
  induction h with
  | nil => intro acc; rfl
  | cons x _ ih => intro acc; simp only [List.foldl]; exact ih _
  | swap x y l =>
    intro acc
    simp only [List.foldl]
    have h : max (max acc y) x = max (max acc x) y := by omega
    rw [h]
  | trans _ _ ih1 ih2 => intro acc; rw [ih1, ih2]

theorem foldl_max_range' (n : Nat) : ∀ s acc : Nat,
    (List.range' s n).foldl max acc = if n = 0 then acc else max acc (s + n - 1) := by
  induction n with
  | zero => intro s acc; rfl
  | succ n ih =>
    intro s acc
    rw [List.range'_succ]
    simp only [List.foldl]
    rw [ih]
    rcases Nat.eq_zero_or_pos n with h | h
    · subst h; simp
    · rw [if_neg (by omega), if_neg (by omega)]; omega

/-- C8: the row counter is stable under marker order: when the decoded
text contains exactly the markers for rows one through N, in any order,
the counter returns N. The hypothesis states that the marker scan of the
text yields a permutation of the numbers one through N. -/
theorem row_count_stable (N : Nat) (s : List Char) (hN : 1 ≤ N)
    (hmarks : (extractRowIds s).Perm (List.range' 1 N)) :
    count_html_rows s = N := by
  have hlen : (extractRowIds s).length = N := by
    have := hmarks.length_eq
    simpa using this
  have hne : ¬((extractRowIds s).isEmpty = true) := by
    rw [List.isEmpty_iff]
    intro h
    rw [h] at hlen
    simp at hlen
    omega
  show (if (extractRowIds s).isEmpty then 0 else (extractRowIds s).foldl max 0) = N
  rw [if_neg hne, foldl_max_perm hmarks, foldl_max_range']
  rw [if_neg (by omega)]
  omega

/-- Witness for the C8 theorem: a text carrying the markers of rows one
and two in reversed order counts two rows. -/
theorem row_count_stable_witness :
    count_html_rows ("id=\"row2\" id=\"row1\"".toList) = 2 :=
  row_count_stable 2 _ (by decide) (by decide)

theorem numChunks_mul_bounds (N c : Nat) (hN : 1 ≤ N) (hc : 1 ≤ c) :
    1 ≤ numChunks N c ∧ N ≤ c * numChunks N c ∧ c * (numChunks N c - 1) < N := by
  have hd := Nat.div_add_mod (N + c - 1) c
  have hm : (N + c - 1) % c < c := Nat.mod_lt _ (by omega)
  have h1 : 1 ≤ numChunks N c := by
    unfold numChunks
    rw [Nat.le_div_iff_mul_le (by omega)]
    omega
  refine ⟨h1, ?_, ?_⟩
  · unfold numChunks at h1 ⊢
    omega
  · obtain ⟨k, hk⟩ : ∃ k, numChunks N c = k + 1 := ⟨numChunks N c - 1, by omega⟩
    have hk2 : (N + c - 1) / c = k + 1 := hk
    rw [hk2] at hd
    rw [Nat.mul_succ] at hd
    rw [hk]
    simp only [Nat.add_sub_cancel]
    omega

theorem chunkWindows_flatten (N c : Nat) (hN : 1 ≤ N) (hc : 1 ≤ c) :
    ∀ d j, j + d = numChunks N c →
      (((List.range' j d).map (chunkWindow c N)).map windowRows).flatten =
        List.range' (j * c + 1) (N - j * c) := by
  obtain ⟨hk1, hk2, hk3⟩ := numChunks_mul_bounds N c hN hc
  intro d
  induction d with
  | zero =>
    intro j hj
    have hz : N - j * c = 0 := by
      have hj' : j = numChunks N c := by omega
      subst hj'
      have hm2 : numChunks N c * c = c * numChunks N c := Nat.mul_comm _ _
      omega
    simp [hz]
  | succ d ih =>
    intro j hj
    rw [List.range'_succ]
    simp only [List.map_cons, List.flatten_cons]
    rw [ih (j + 1) (by omega)]
    have hjk : j < numChunks N c := by omega
    have hjc : j * c < N := by
      calc j * c ≤ (numChunks N c - 1) * c := Nat.mul_le_mul_right c (by omega)
        _ = c * (numChunks N c - 1) := Nat.mul_comm _ _
        _ < N := hk3
    show List.range' (j * c + 1) (min ((j + 1) * c) N + 1 - (j * c + 1)) ++
      List.range' ((j + 1) * c + 1) (N - (j + 1) * c) = List.range' (j * c + 1) (N - j * c)
    rcases le_or_lt ((j + 1) * c) N with hle | hlt
    · have hsucc : (j + 1) * c = j * c + c := by ring
      have hmin : min ((j + 1) * c) N = (j + 1) * c := by omega
      rw [hmin]
      have hB : (j + 1) * c + 1 = (j * c + 1) + ((j + 1) * c + 1 - (j * c + 1)) := by omega
      nth_rewrite 2 [hB]
      rw [List.range'_append_1]
      congr 1
      omega
    · have hmin : min ((j + 1) * c) N = N := by omega
      have hempty : N - (j + 1) * c = 0 := by omega
      rw [hmin, hempty]
      simp

/-- C5: for every total row count of at least one and every chunk size of
at least one, the chunk windows are exactly the ceiling-division many,
their sizes are at most the chunk size, and their rows, concatenated in
window order, are exactly the rows one through N in increasing order, so
the windows are consecutive, non-overlapping, and cover each row once. -/
theorem chunk_partition_correct (N c : Nat) (hN : 1 ≤ N) (hc : 1 ≤ c) :
    (chunkWindows N c).length = (N + c - 1) / c ∧
    N ≤ c * (chunkWindows N c).length ∧
    c * ((chunkWindows N c).length - 1) < N ∧
    ((chunkWindows N c).map windowRows).flatten = List.range' 1 N ∧
    ∀ w ∈ chunkWindows N c, w.1 ≤ w.2 ∧ w.2 + 1 - w.1 ≤ c := by
  obtain ⟨hk1, hk2, hk3⟩ := numChunks_mul_bounds N c hN hc
  have hlen : (chunkWindows N c).length = numChunks N c := by
    simp [chunkWindows]
  refine ⟨by simpa [numChunks] using hlen, by rw [hlen]; exact hk2, by rw [hlen]; exact hk3, ?_, ?_⟩
  · have h := chunkWindows_flatten N c hN hc (numChunks N c) 0 (by omega)
    simpa [chunkWindows, List.range_eq_range'] using h
  · intro w hw
    simp only [chunkWindows, List.mem_map, List.mem_range] at hw
    obtain ⟨i, hi, rfl⟩ := hw
    have hic : i * c < N := by
      calc i * c ≤ (numChunks N c - 1) * c := Nat.mul_le_mul_right c (by omega)
        _ = c * (numChunks N c - 1) := Nat.mul_comm _ _
        _ < N := hk3
    have hsucc : (i + 1) * c = i * c + c := by ring
    show i * c + 1 ≤ min ((i + 1) * c) N ∧ min ((i + 1) * c) N + 1 - (i * c + 1) ≤ c
    omega

/-- Witness for the C5 theorem at the example of the specification:
sixty-five rows in chunks of thirty give the three windows one to thirty,
thirty-one to sixty, and sixty-one to sixty-five. -/
theorem chunk_partition_correct_witness :
    chunkWindows 65 30 = [(1, 30), (31, 60), (61, 65)] ∧
    ((chunkWindows 65 30).map windowRows).flatten = List.range' 1 65 :=
  ⟨by decide, (chunk_partition_correct 65 30 (by decide) (by decide)).2.2.2.1⟩

theorem processSheet_fold (workbook_name : String) (files : String → JsonArtifact) :
    ∀ (names : List String) (acc : Workbook × Bool × Nat),
      ((names.foldl (processSheetStep workbook_name files) acc).2.1 = true ↔
        (acc.2.1 = true ∨ ∃ s ∈ names,
          (sheetPatchData (files (expectedJsonFilename workbook_name s))).isSome = true)) ∧
      ((names.foldl (processSheetStep workbook_name files) acc).2.1 = false →
        (names.foldl (processSheetStep workbook_name files) acc).1 = acc.1) := by
  intro names
  induction names with
  | nil => intro acc; simp
  | cons n ns ih =>
    intro acc
    simp only [List.foldl_cons]
    cases h : sheetPatchData (files (expectedJsonFilename workbook_name n)) with
    | none =>
      have hstep : processSheetStep workbook_name files acc n = acc := by
        simp [processSheetStep, h]
      rw [hstep]
      refine ⟨?_, (ih acc).2⟩
      rw [(ih acc).1]
      simp [h]
    | some cd =>
      have hstep : processSheetStep workbook_name files acc n =
          ((update_excel_sheet acc.1 n cd).1, true, acc.2.2 + (update_excel_sheet acc.1 n cd).2) := by
        simp [processSheetStep, h]
      rw [hstep]
      constructor
      · rw [(ih _).1]
        simp [h]
      · intro hfalse
        have htrue := (ih (((update_excel_sheet acc.1 n cd).1, true,
          acc.2.2 + (update_excel_sheet acc.1 n cd).2) : Workbook × Bool × Nat)).1.mpr (Or.inl rfl)
        rw [htrue] at hfalse
        cases hfalse

/-- C3: the claim says a workbook is saved only when at least one sheet
received at least one successful cell update; but a workbook whose one
sheet matches a JSON artifact holding an empty patch array is marked for
saving while its total update count is zero. -/
theorem workbook_saved_without_updates :
    (processWorkbook "wb" (Workbook.mk [("S", Worksheet.mk [] fun _ => PyValue.noneV)])
      (fun _ => JsonArtifact.arrData [])).2.1 = true ∧
    (processWorkbook "wb" (Workbook.mk [("S", Worksheet.mk [] fun _ => PyValue.noneV)])
      (fun _ => JsonArtifact.arrData [])).2.2 = 0 := by
  exact ⟨by decide, by decide⟩

/-- C3 amended: a workbook is saved to the updated-artifacts location
exactly when at least one of its sheets has a matching JSON artifact that
loads as an object or an array, regardless of how many cell updates
succeed; with no such artifact the workbook is left untouched and reported
as skipped. -/
theorem workbook_saved_iff_artifact_found (workbook_name : String) (wb : Workbook)
    (files : String → JsonArtifact) :
    ((processWorkbook workbook_name wb files).2.1 = true ↔
      ∃ s ∈ wb.sheetnames,
        (sheetPatchData (files (expectedJsonFilename workbook_name s))).isSome = true) ∧
    ((processWorkbook workbook_name wb files).2.1 = false →
      (processWorkbook workbook_name wb files).1 = wb) := by
  have h := processSheet_fold workbook_name files wb.sheetnames (wb, false, 0)
  simp only [processWorkbook]
  constructor
  · rw [h.1]; simp
  · exact h.2

/-- Witness for the amended C3 theorem at a concrete input: with no
artifact found for the single sheet, the workbook is untouched. -/
theorem workbook_saved_iff_artifact_found_witness :
    (processWorkbook "wb" (Workbook.mk [("S", Worksheet.mk [] fun _ => PyValue.noneV)])
      (fun _ => JsonArtifact.missing)).1 =
      Workbook.mk [("S", Worksheet.mk [] fun _ => PyValue.noneV)] :=
  (workbook_saved_iff_artifact_found "wb"
    (Workbook.mk [("S", Worksheet.mk [] fun _ => PyValue.noneV)])
    (fun _ => JsonArtifact.missing)).2 (by decide)

theorem replaceAll_append (l1 l2 : List Char) (t : Char) (r : List Char) :
    replaceAll (l1 ++ l2) t r = replaceAll l1 t r ++ replaceAll l2 t r := by
  simp [replaceAll]

theorem sixReplace_append (l1 l2 : List Char) :
    sixReplace (l1 ++ l2) = sixReplace l1 ++ sixReplace l2 := by
  simp [sixReplace, replaceAll_append]

theorem sixReplace_char (c : Char) : sixReplace [c] = amendedCharMap c := by
  by_cases h1 : c = ' '
  · subst h1; decide
  by_cases h2 : c = '.'
  · subst h2; decide
  by_cases h3 : c = '('
  · subst h3; decide
  by_cases h4 : c = ')'
  · subst h4; decide
  by_cases h5 : c = ','
  · subst h5; decide
  by_cases h6 : c = '-'
  · subst h6; decide
  simp [sixReplace, replaceAll, amendedCharMap, h1, h2, h3, h4, h5, h6]

theorem sixReplace_eq_flatMap (l : List Char) : sixReplace l = l.flatMap amendedCharMap := by
  induction l with
  | nil => rfl
  | cons c l ih =>
    have hcons : (c :: l) = [c] ++ l := rfl
    rw [hcons, sixReplace_append, sixReplace_char, ih]
    simp

/-- C4: the claim says the sanitization turns whitespace and each of dot,
parentheses, comma, and hyphen into single underscores, and that the
sanitized sheet name followed by the workbook base name equals the patch
set base name; but the code deletes closing parentheses instead of
replacing them, replaces only the space character among whitespace, and
builds the artifact name as the workbook name, an underscore, then the
sanitized sheet name. -/
theorem sanitize_differs_from_claimed :
    clean_sheet_name_for_json "a)b\tc" = "ab\tc" ∧
    claimedSanitize "a)b\tc" = "a_b_c" ∧
    clean_sheet_name_for_json "a)b\tc" ≠ claimedSanitize "a)b\tc" ∧
    expectedJsonFilename "wb" "Sheet 1" = "wb_Sheet_1.json" ∧
    clean_sheet_name_for_json "Sheet 1" ++ "wb" ≠ "wb_Sheet_1" := by
  decide

/-- C4 amended: the sanitization strips outer whitespace, turns the space
character and each of dot, opening parenthesis, comma, and hyphen into
underscores, deletes closing parentheses, collapses underscore runs, and
strips outer underscores; a patch set matches a worksheet exactly when the
workbook base name, an underscore, and this sanitized sheet name form the
patch set base name. -/
theorem sanitize_amended_spec :
    (∀ s : String, clean_sheet_name_for_json s = amendedSanitize s) ∧
    (∀ workbook_name sheet_name : String,
      expectedJsonFilename workbook_name sheet_name =
        workbook_name ++ "_" ++ amendedSanitize sheet_name ++ ".json") ∧
    clean_sheet_name_for_json "revenue forecast" = "revenue_forecast" ∧
    clean_sheet_name_for_json "1. Fic. amounts (patenting) " = "1_Fic_amounts_patenting" := by
  have hmain : ∀ s : String, clean_sheet_name_for_json s = amendedSanitize s := by
    intro s
    show String.mk (stripEnds (collapseUnderscores (sixReplace (stripEnds s.data Char.isWhitespace)))
      fun c => decide (c = '_')) = _
    rw [sixReplace_eq_flatMap]
    rfl
  exact ⟨hmain, fun w sh => by simp only [expectedJsonFilename, hmain], by decide, by decide⟩

theorem rangeCells_symm_disjoint :
    Symmetric fun a b : MergedRange => ∀ q ∈ rangeCells a, q ∉ rangeCells b := by
  intro a b hab q hq hqa
  exact hab q hqa hq

theorem mapping_key_topLeft {ranges : List MergedRange} {mr : MergedRange} {p : Nat × Nat}
    (hdisj : ranges.Pairwise fun a b => ∀ q ∈ rangeCells a, q ∉ rangeCells b)
    (hmr : mr ∈ ranges) (hp : p ∈ rangeCells mr) :
    ∀ e ∈ get_merged_cell_mapping ranges, e.1 = p → e.2 = mr.topLeft := by
  intro e he hkey
  rw [get_merged_cell_mapping_eq] at he
  simp only [List.mem_flatten, List.mem_map] at he
  obtain ⟨l, ⟨mr', hmr', rfl⟩, he⟩ := he
  simp only [List.mem_map] at he
  obtain ⟨q, hq, rfl⟩ := he
  simp only at hkey
  subst hkey
  by_cases hmm : mr' = mr
  · subst hmm; rfl
  · exfalso
    exact hdisj.forall rangeCells_symm_disjoint hmr' hmr hmm q hq hp

theorem resolve_subordinate {ranges : List MergedRange} {mr : MergedRange} {p : Nat × Nat}
    (hdisj : ranges.Pairwise fun a b => ∀ q ∈ rangeCells a, q ∉ rangeCells b)
    (hmr : mr ∈ ranges) (hp : p ∈ rangeCells mr) :
    resolve_merged_cell_reference p (get_merged_cell_mapping ranges) = mr.topLeft := by
  have hmem : (p, mr.topLeft) ∈ (get_merged_cell_mapping ranges).reverse := by
    rw [List.mem_reverse, get_merged_cell_mapping_eq]
    simp only [List.mem_flatten, List.mem_map]
    refine ⟨(rangeCells mr).map fun q => (q, mr.topLeft), ⟨mr, hmr, rfl⟩, ?_⟩
    simp only [List.mem_map]
    exact ⟨p, hp, rfl⟩
  have hlook : dictLookup (get_merged_cell_mapping ranges) p = some mr.topLeft := by
    unfold dictLookup
    cases hfind : (get_merged_cell_mapping ranges).reverse.find? (fun e => decide (e.1 = p)) with
    | none =>
      exfalso
      have := List.find?_eq_none.mp hfind (p, mr.topLeft) hmem
      simp at this
    | some e =>
      have he1 : e ∈ get_merged_cell_mapping ranges :=
        List.mem_reverse.mp (List.mem_of_find?_eq_some hfind)
      have he2 : e.1 = p := by
        have := List.find?_some hfind
        simpa using this
      have he3 : e.2 = mr.topLeft := mapping_key_topLeft hdisj hmr hp e he1 he2
      simp [he3]
  unfold resolve_merged_cell_reference
  rw [hlook]

/-- C6: a patch whose cell reference is a subordinate cell of a merged
range is written to, and only to, the governing top-left coordinate of
that range, and applying the same patch a second time writes the same
resolved value to the same cell, leaving the worksheet unchanged. The
merged ranges are assumed pairwise disjoint, as worksheets guarantee, and
the patch value is assumed to pass the validation filter. -/
theorem merged_patch_redirect_idempotent (ws : Worksheet) (mr : MergedRange)
    (p : Nat × Nat) (v : PyValue) (ctx : String)
    (hmr : mr ∈ ws.mergedRanges)
    (hdisj : ws.mergedRanges.Pairwise fun a b => ∀ q ∈ rangeCells a, q ∉ rangeCells b)
    (hp : p ∈ rangeCells mr) (hsub : p ≠ mr.topLeft)
    (hv1 : v ≠ PyValue.noneV) (hv2 : v ≠ PyValue.strV "") :
    ((applyPatchesToSheet ws [CellPatch.mk p v ctx]).1).cells mr.topLeft = coerceValue v ∧
    (∀ q : Nat × Nat, q ≠ mr.topLeft →
      ((applyPatchesToSheet ws [CellPatch.mk p v ctx]).1).cells q = ws.cells q) ∧
    (applyPatchesToSheet ((applyPatchesToSheet ws [CellPatch.mk p v ctx]).1)
      [CellPatch.mk p v ctx]).1 = (applyPatchesToSheet ws [CellPatch.mk p v ctx]).1 := by
  have hres := resolve_subordinate hdisj hmr hp
  have hcond : ¬((CellPatch.mk p v ctx).value = PyValue.noneV ∨
      (CellPatch.mk p v ctx).value = PyValue.strV "") := by
    simp [hv1, hv2]
  have happly : (applyPatchesToSheet ws [CellPatch.mk p v ctx]).1 =
      Worksheet.mk ws.mergedRanges (Function.update ws.cells mr.topLeft (coerceValue v)) := by
    unfold applyPatchesToSheet
    simp only [List.foldl_cons, List.foldl_nil]
    unfold applyPatchStep
    rw [if_neg hcond]
    simp [hres]
  refine ⟨?_, ?_, ?_⟩
  · rw [happly]
    exact Function.update_same _ _ _
  · intro q hq
    rw [happly]
    exact Function.update_noteq hq _ _
  · rw [happly]
    unfold applyPatchesToSheet
    simp only [List.foldl_cons, List.foldl_nil]
    unfold applyPatchStep
    rw [if_neg hcond]
    show Worksheet.mk ws.mergedRanges (Function.update
      (Function.update ws.cells mr.topLeft (coerceValue v))
      (resolve_merged_cell_reference p (get_merged_cell_mapping ws.mergedRanges))
      (coerceValue v)) = _
    rw [hres, Function.update_idem]

/-- Witness for the C6 theorem: one range covering the two cells of the
first row, a patch addressed to the subordinate second cell, redirected to
the first and idempotent. -/
theorem merged_patch_redirect_idempotent_witness :
    ((applyPatchesToSheet (Worksheet.mk [MergedRange.mk 1 1 1 2] fun _ => PyValue.noneV)
      [CellPatch.mk (1, 2) (PyValue.strV "7") ""]).1).cells (MergedRange.mk 1 1 1 2).topLeft =
      coerceValue (PyValue.strV "7") ∧
    (∀ q : Nat × Nat, q ≠ (MergedRange.mk 1 1 1 2).topLeft →
      ((applyPatchesToSheet (Worksheet.mk [MergedRange.mk 1 1 1 2] fun _ => PyValue.noneV)
        [CellPatch.mk (1, 2) (PyValue.strV "7") ""]).1).cells q =
        (Worksheet.mk [MergedRange.mk 1 1 1 2] fun _ => PyValue.noneV).cells q) ∧
    (applyPatchesToSheet ((applyPatchesToSheet
      (Worksheet.mk [MergedRange.mk 1 1 1 2] fun _ => PyValue.noneV)
      [CellPatch.mk (1, 2) (PyValue.strV "7") ""]).1)
      [CellPatch.mk (1, 2) (PyValue.strV "7") ""]).1 =
      (applyPatchesToSheet (Worksheet.mk [MergedRange.mk 1 1 1 2] fun _ => PyValue.noneV)
        [CellPatch.mk (1, 2) (PyValue.strV "7") ""]).1 :=
  merged_patch_redirect_idempotent _ _ _ _ _ (by simp) (by simp) (by decide) (by decide)
    (by decide) (by decide)

theorem find_merged_ranges_eq (ranges : List MergedRange) :
    find_merged_ranges ranges = (ranges.map mergeEntriesFor).flatten := by
  simpa using foldl_append_eq ranges mergeEntriesFor []

theorem mem_mergeEntriesFor {mr : MergedRange} {e : (Nat × Nat) × MergeInfo}
    (he : e ∈ mergeEntriesFor mr) :
    (e.1 = mr.topLeft ∧ e.2.isRootInfo = true) ∨
    (e.1 ∈ rangeCells mr ∧ e.1 ≠ mr.topLeft ∧ e.2.isRootInfo = false) := by
  unfold mergeEntriesFor at he
  simp only [List.mem_cons, List.mem_map, List.mem_filter] at he
  rcases he with rfl | ⟨q, ⟨hq1, hq2⟩, rfl⟩
  · left; exact ⟨rfl, rfl⟩
  · right
    refine ⟨hq1, ?_, rfl⟩
    simpa using hq2

theorem topLeft_mem_rangeCells {mr : MergedRange}
    (h1 : mr.min_row ≤ mr.max_row) (h2 : mr.min_col ≤ mr.max_col) :
    mr.topLeft ∈ rangeCells mr := by
  rw [mem_rangeCells]
  exact ⟨le_refl _, h1, le_refl _, h2⟩

theorem governing_topLeft {ranges : List MergedRange} {p : Nat × Nat}
    (hg : isGoverningCell ranges p = true) : ∃ mr ∈ ranges, p = mr.topLeft := by
  unfold isGoverningCell at hg
  rw [List.any_eq_true] at hg
  obtain ⟨e, he, hpred⟩ := hg
  rw [find_merged_ranges_eq] at he
  simp only [List.mem_flatten, List.mem_map] at he
  obtain ⟨l, ⟨mr, hmr, rfl⟩, he⟩ := he
  simp only [Bool.and_eq_true, decide_eq_true_eq] at hpred
  rcases mem_mergeEntriesFor he with ⟨h1, _⟩ | ⟨_, _, h3⟩
  · exact ⟨mr, hmr, hpred.1 ▸ h1.symm ▸ rfl⟩
  · rw [h3] at hpred
    cases hpred.2

theorem hidden_subordinate {ranges : List MergedRange} {p : Nat × Nat}
    (hh : isHiddenCell ranges p = true) :
    ∃ mr ∈ ranges, p ∈ rangeCells mr ∧ p ≠ mr.topLeft := by
  unfold isHiddenCell at hh
  rw [List.any_eq_true] at hh
  obtain ⟨e, he, hpred⟩ := hh
  rw [find_merged_ranges_eq] at he
  simp only [List.mem_flatten, List.mem_map] at he
  obtain ⟨l, ⟨mr, hmr, rfl⟩, he⟩ := he
  simp only [Bool.and_eq_true, decide_eq_true_eq, Bool.not_eq_true'] at hpred
  rcases mem_mergeEntriesFor he with ⟨_, h2⟩ | ⟨h1, h2, _⟩
  · rw [h2] at hpred
    cases hpred.2
  · exact ⟨mr, hmr, hpred.1 ▸ h1, hpred.1 ▸ h2⟩

/-- C7: for a worksheet whose merged ranges are well formed and pairwise
disjoint, every coordinate falls into exactly one of the three classes the
merged-range resolution produces: governing root, hidden subordinate, or
ordinary; no coordinate is in two classes. Proved for every coordinate,
which covers in particular the bounding rectangle of the worksheet. -/
theorem merge_classification_exactly_one (ranges : List MergedRange) (p : Nat × Nat)
    (hvalid : ∀ mr ∈ ranges, mr.min_row ≤ mr.max_row ∧ mr.min_col ≤ mr.max_col)
    (hdisj : ranges.Pairwise fun a b => ∀ q ∈ rangeCells a, q ∉ rangeCells b) :
    (isGoverningCell ranges p = true ∨ isHiddenCell ranges p = true ∨
      isOrdinaryCell ranges p = true) ∧
    ¬(isGoverningCell ranges p = true ∧ isHiddenCell ranges p = true) ∧
    ¬(isGoverningCell ranges p = true ∧ isOrdinaryCell ranges p = true) ∧
    ¬(isHiddenCell ranges p = true ∧ isOrdinaryCell ranges p = true) := by
  have hgov_any : isGoverningCell ranges p = true →
      (find_merged_ranges ranges).any (fun e => decide (e.1 = p)) = true := by
    unfold isGoverningCell
    rw [List.any_eq_true, List.any_eq_true]
    rintro ⟨e, he, hpred⟩
    rw [Bool.and_eq_true] at hpred
    exact ⟨e, he, hpred.1⟩
  have hhid_any : isHiddenCell ranges p = true →
      (find_merged_ranges ranges).any (fun e => decide (e.1 = p)) = true := by
    unfold isHiddenCell
    rw [List.any_eq_true, List.any_eq_true]
    rintro ⟨e, he, hpred⟩
    rw [Bool.and_eq_true] at hpred
    exact ⟨e, he, hpred.1⟩
  refine ⟨?_, ?_, ?_, ?_⟩
  · by_cases hg : isGoverningCell ranges p = true
    · exact Or.inl hg
    by_cases hh : isHiddenCell ranges p = true
    · exact Or.inr (Or.inl hh)
    refine Or.inr (Or.inr ?_)
    unfold isOrdinaryCell
    rw [Bool.not_eq_true']
    rw [List.any_eq_false]
    intro e he
    simp only [decide_eq_true_eq]
    intro hkey
    cases hroot : e.2.isRootInfo with
    | true =>
      apply hg
      unfold isGoverningCell
      rw [List.any_eq_true]
      exact ⟨e, he, by simp [hkey, hroot]⟩
    | false =>
      apply hh
      unfold isHiddenCell
      rw [List.any_eq_true]
      exact ⟨e, he, by simp [hkey, hroot]⟩
  · rintro ⟨hg, hh⟩
    obtain ⟨mr1, hmr1, hp1⟩ := governing_topLeft hg
    obtain ⟨mr2, hmr2, hp2, hp3⟩ := hidden_subordinate hh
    by_cases hmm : mr1 = mr2
    · subst hmm
      exact hp3 hp1
    · have hv1 := hvalid mr1 hmr1
      have hin1 : p ∈ rangeCells mr1 := hp1 ▸ topLeft_mem_rangeCells hv1.1 hv1.2
      exact hdisj.forall rangeCells_symm_disjoint hmr1 hmr2 hmm p hin1 hp2
  · rintro ⟨hg, ho⟩
    unfold isOrdinaryCell at ho
    rw [Bool.not_eq_true'] at ho
    rw [hgov_any hg] at ho
    cases ho
  · rintro ⟨hh, ho⟩
    unfold isOrdinaryCell at ho
    rw [Bool.not_eq_true'] at ho
    rw [hhid_any hh] at ho
    cases ho

/-- Witness for the C7 theorem: one valid two-cell range, checked at the
subordinate coordinate. -/
theorem merge_classification_exactly_one_witness :
    (isGoverningCell [MergedRange.mk 1 1 1 2] (1, 2) = true ∨
      isHiddenCell [MergedRange.mk 1 1 1 2] (1, 2) = true ∨
      isOrdinaryCell [MergedRange.mk 1 1 1 2] (1, 2) = true) ∧
    ¬(isGoverningCell [MergedRange.mk 1 1 1 2] (1, 2) = true ∧
      isHiddenCell [MergedRange.mk 1 1 1 2] (1, 2) = true) ∧
    ¬(isGoverningCell [MergedRange.mk 1 1 1 2] (1, 2) = true ∧
      isOrdinaryCell [MergedRange.mk 1 1 1 2] (1, 2) = true) ∧
    ¬(isHiddenCell [MergedRange.mk 1 1 1 2] (1, 2) = true ∧
      isOrdinaryCell [MergedRange.mk 1 1 1 2] (1, 2) = true) :=
  merge_classification_exactly_one [MergedRange.mk 1 1 1 2] (1, 2) (by decide) (by simp)

end ExcelProcessing
